import Mathlib

/-!
Verification of the Engram capture-to-memory pipeline (src/src-tauri/src).

Shallow embedding of the store (`db/mod.rs`, `db/schema.rs`), the capture
dedup/idle gating (`daemon/mod.rs`, `daemon/hasher.rs`, `daemon/idle.rs`) and
the pass-2 session routing (`daemon/vlm_task.rs`).  SQL tables are lists of
rows; `i64` columns are `Int`; blobs are `List Nat` (bytes); `f32` RRF scores
are modelled with `ℚ`.
-/

namespace Engram

/-! ## Perceptual hash and capture dedup (`daemon/hasher.rs`, `daemon/mod.rs`) -/

/-- Bit-population count of one byte (`u8::count_ones` in
`PerceptualHasher::hamming_distance`); 8 fuel steps cover all 8 bits of a
byte value `< 256`. -/
def popcountAux : Nat → Nat → Nat
  | 0, _ => 0
  | fuel + 1, n => n % 2 + popcountAux fuel (n / 2)

def popcount (b : Nat) : Nat := popcountAux 8 b

/-- `PerceptualHasher::hamming_distance` (hasher.rs:43-49): sum of popcounts
of bytewise XOR over the 8 hash bytes. -/
def hammingDistance (h1 h2 : List Nat) : Nat :=
  (h1.zip h2).foldl (fun acc p => acc + popcount (p.1 ^^^ p.2)) 0

/-- Capture-loop dedup decision (daemon/mod.rs:171-177): with a previous
hash, the frame is skipped iff `hamming_distance < similarity_threshold`;
with no previous hash the frame is kept. -/
def shouldSkipFrame (prev : Option (List Nat)) (cur : List Nat)
    (similarity_threshold : Nat) : Bool :=
  match prev with
  | some p => hammingDistance p cur < similarity_threshold
  | none => false

/-! ## Idle detection (`daemon/idle.rs`) -/

/-- Result of the OS idle probe `user_idle::UserIdle::get_time()`. -/
def IdleProbe := Except String Nat

/-- `IdleDetector::get_idle_time_ms` (idle.rs:24-32): the probed idle time,
or `0` when the probe returns an error. -/
def getIdleTimeMs (probe : Except String Nat) : Nat :=
  match probe with
  | .ok idle => idle
  | .error _ => 0

/-- `IdleDetector::is_idle` (idle.rs:35-44): `idle_time >= threshold_ms`. -/
def isIdle (threshold_ms : Nat) (probe : Except String Nat) : Bool :=
  threshold_ms ≤ getIdleTimeMs probe

/-! ## Store data model (`db/schema.rs`, `db/models.rs`)

Only the columns the session pipeline reads or writes are carried; blob and
display columns that no modelled operation touches are omitted. -/

/-- One element of a session's `key_actions_json` array, as built by
`append_activity_session_event` (db/mod.rs:984-991). -/
structure KeyAction where
  timestamp : Int
  trace_id : Int
  summary : String
  action_description : String
  activity_type : Option String
  entities : List String
deriving Repr, DecidableEq

/-- Row of `activity_sessions` (schema.rs:60-82).  `entities_json` and
`key_actions_json` are carried as the parsed values (a count map and an
array); `NULL` is `none`. -/
structure SessionRow where
  id : Int
  app_name : String
  title : Option String
  description : Option String
  start_time : Int
  end_time : Int
  start_trace_id : Option Int
  end_trace_id : Option Int
  trace_count : Int
  context_text : Option String
  entities_json : Option (List (String × Int))
  key_actions_json : Option (List KeyAction)
deriving Repr, DecidableEq

/-- Row of `traces` (schema.rs:92-135), restricted to the columns used by
session routing, event append and embedding updates. -/
structure TraceRow where
  id : Int
  timestamp : Int
  app_name : Option String
  is_idle : Bool
  activity_session_id : Option Int
  is_key_action : Bool
  embedding : Option (List Nat)
deriving Repr, DecidableEq

/-- Row of `activity_session_events` as inserted by
`append_activity_session_event` (db/mod.rs:871-891), restricted to the
columns the claims mention. -/
structure EventRow where
  session_id : Int
  trace_id : Int
  timestamp : Int
  summary : Option String
  is_key_action : Bool
deriving Repr, DecidableEq

/-- The SQLite store: each table as a list of rows plus the AUTOINCREMENT
counters.  `vecTable` is the lazily created `traces_vec` virtual table:
its `FLOAT[N]` dimension and its rows `(trace_id, embedding bytes)`. -/
structure Store where
  traces : List TraceRow
  sessions : List SessionRow
  events : List EventRow
  settings : List (String × String)
  vecTable : Option (Nat × List (Int × List Nat))
  nextTraceId : Int
  nextSessionId : Int
deriving Repr, DecidableEq

/-- `NewTrace` (db/models.rs), restricted to the fields `insert_trace`
routes on. -/
structure NewTrace where
  timestamp : Int
  app_name : Option String
  is_idle : Bool
deriving Repr, DecidableEq

/-! ## Pass-1 session routing and trace insert (`db/mod.rs:120-246`) -/

/-- Rust's `str::trim(...).is_empty()` test of
`get_or_create_activity_session_id_inner` (db/mod.rs:192-195): true iff the
string is all whitespace. -/
def trimmedIsEmpty (a : String) : Bool :=
  a.data.all Char.isWhitespace

/-- Decimal digit run of Rust's `str::parse::<i64>`. -/
def parseNatDigits? (l : List Char) : Option Nat :=
  match l with
  | [] => none
  | _ =>
    l.foldl
      (fun acc? c =>
        acc?.bind (fun acc =>
          if c.isDigit then some (acc * 10 + (c.toNat - 48)) else none))
      (some 0)

/-- Rust's `str::parse::<i64>().ok()` (db/mod.rs:199): optional sign then
decimal digits, `none` on anything else. -/
def parseInt? (s : String) : Option Int :=
  match s.data with
  | '-' :: rest => (parseNatDigits? rest).map (fun n => -(n : Int))
  | '+' :: rest => (parseNatDigits? rest).map Int.ofNat
  | l => (parseNatDigits? l).map Int.ofNat

/-- `Database::get_setting_inner` (db/mod.rs:234-246). -/
def getSettingInner (st : Store) (key : String) : Option String :=
  (st.settings.find? (fun kv => kv.1 = key)).map (·.2)

/-- The `session_gap_threshold_ms` lookup in
`get_or_create_activity_session_id_inner` (db/mod.rs:197-200):
parse the setting, defaulting to 300000. -/
def gapThresholdMs (st : Store) : Int :=
  ((getSettingInner st "session_gap_threshold_ms").bind parseInt?).getD 300000

/-- The `SELECT id, end_time FROM activity_sessions WHERE app_name = ?1
ORDER BY end_time DESC LIMIT 1` query (db/mod.rs:203-215): a session of
this app with maximal `end_time` (first such row kept on ties). -/
def mostRecentSessionFor (sessions : List SessionRow) (app : String) :
    Option SessionRow :=
  (sessions.filter (fun s => s.app_name = app)).foldl
    (fun acc s =>
      match acc with
      | none => some s
      | some b => if s.end_time > b.end_time then some s else some b)
    none

/-- The fresh session row inserted by `INSERT INTO activity_sessions
(app_name, start_time, end_time, trace_count) VALUES (?1, ?2, ?2, 0)`
(db/mod.rs:224-230). -/
def freshSession (sid : Int) (app : String) (timestamp : Int) : SessionRow :=
  { id := sid, app_name := app, title := none, description := none,
    start_time := timestamp, end_time := timestamp,
    start_trace_id := none, end_trace_id := none, trace_count := 0,
    context_text := none, entities_json := none, key_actions_json := none }

/-- The session-creating branch of
`get_or_create_activity_session_id_inner` (db/mod.rs:223-231). -/
def createSessionRow (st : Store) (app : String) (timestamp : Int) :
    Option Int × Store :=
  (some st.nextSessionId,
    { st with
      sessions := st.sessions ++ [freshSession st.nextSessionId app timestamp],
      nextSessionId := st.nextSessionId + 1 })

/-- `Database::get_or_create_activity_session_id_inner` (db/mod.rs:181-232):
`None` for idle traces or empty/absent `app_name`; otherwise adopt the most
recent session of the app when `timestamp - end_time ≤ gap`, else insert a
fresh session. -/
def getOrCreateActivitySessionId (st : Store) (timestamp : Int)
    (app_name : Option String) (is_idle : Bool) : Option Int × Store :=
  if is_idle then (none, st)
  else
    match app_name with
    | none => (none, st)
    | some a =>
      if trimmedIsEmpty a then (none, st)
      else
        match mostRecentSessionFor st.sessions a with
        | some s =>
          if timestamp - s.end_time ≤ gapThresholdMs st then (some s.id, st)
          else createSessionRow st a timestamp
        | none => createSessionRow st a timestamp

/-- The per-session `UPDATE activity_sessions SET start_trace_id =
COALESCE(start_trace_id, ?1), end_trace_id = ?1, start_time = MIN(start_time,
?2), end_time = MAX(end_time, ?2), trace_count = trace_count + 1`
statement of `insert_trace` (db/mod.rs:160-173). -/
def sessionInsertUpdate (trace_id timestamp : Int) (s : SessionRow) : SessionRow :=
  { s with
    start_trace_id := some (s.start_trace_id.getD trace_id),
    end_trace_id := some trace_id,
    start_time := min s.start_time timestamp,
    end_time := max s.end_time timestamp,
    trace_count := s.trace_count + 1 }

/-- `Database::insert_trace` (db/mod.rs:120-179).  Session resolution runs on
the raw connection *before* `conn.transaction()` starts, so its effect
persists even when the transaction fails; `failInTx` injects a failure of the
trace `INSERT` (or the session `UPDATE`), returning the state as left behind
by the rollback. -/
def insertTraceCore (st : Store) (nt : NewTrace) (failInTx : Bool) :
    Except Store ((Int × Option Int) × Store) :=
  let res := getOrCreateActivitySessionId st nt.timestamp nt.app_name nt.is_idle
  let session_id := res.1
  let st1 := res.2
  if failInTx then .error st1
  else
    let tid := st1.nextTraceId
    let row : TraceRow :=
      { id := tid, timestamp := nt.timestamp, app_name := nt.app_name,
        is_idle := nt.is_idle, activity_session_id := session_id,
        is_key_action := false, embedding := none }
    let st2 := { st1 with traces := st1.traces ++ [row], nextTraceId := tid + 1 }
    let st3 :=
      match session_id with
      | some sid =>
        { st2 with sessions := st2.sessions.map (fun s =>
            if s.id = sid then sessionInsertUpdate tid nt.timestamp s else s) }
      | none => st2
    .ok ((tid, session_id), st3)

/-- `insert_trace` on the success path. -/
def insertTrace (st : Store) (nt : NewTrace) : (Int × Option Int) × Store :=
  match insertTraceCore st nt false with
  | .ok r => r
  | .error st' => ((0, none), st')

/-- Fold `insert_trace` over a stream of captures (the capture loop's
repeated `db.insert_trace` calls). -/
def runInserts (st : Store) (l : List NewTrace) : Store :=
  l.foldl (fun s nt => (insertTrace s nt).2) st

/-- The store right after `init_schema` on a fresh database: empty tables,
the default settings of schema.rs:245-256, AUTOINCREMENT counters at 1. -/
def emptyStore : Store :=
  { traces := [], sessions := [], events := [],
    settings := [("capture_interval_ms", "2000"), ("idle_threshold_ms", "30000"),
      ("similarity_threshold", "5"), ("hot_data_days", "7"), ("warm_data_days", "30"),
      ("summary_interval_min", "15"), ("session_gap_threshold_ms", "300000")],
    vecTable := none, nextTraceId := 1, nextSessionId := 1 }

/-- The six captures of the interleaved-apps scenario: seconds
`[0,2,4,20,22,310]` as Unix milliseconds, apps `[A,A,A,B,B,A]`, none idle. -/
def c1Scenario : List NewTrace :=
  [⟨0, some "A", false⟩, ⟨2000, some "A", false⟩, ⟨4000, some "A", false⟩,
   ⟨20000, some "B", false⟩, ⟨22000, some "B", false⟩, ⟨310000, some "A", false⟩]

/-! ## Session event append (`db/mod.rs:846-1034`) -/

/-- Rust's `str::trim`: strip whitespace from both ends. -/
def rustTrim (s : String) : String :=
  String.mk (((s.data.dropWhile Char.isWhitespace).reverse.dropWhile
    Char.isWhitespace).reverse)

/-- The last-`MAX` characters tail trim
`s.chars().rev().take(n).collect::<String>().chars().rev().collect()`
(db/mod.rs:958-968). -/
def tailChars (n : Nat) (s : String) : String :=
  String.mk ((s.data.reverse.take n).reverse)

/-- One `counts.insert(e, current + 1)` step of the entity merge
(db/mod.rs:912-918): replace the entry if the key exists, else add it. -/
def bumpEntity : List (String × Int) → String → List (String × Int)
  | [], e => [(e, 1)]
  | p :: rest, e =>
    if p.1 = e then (p.1, p.2 + 1) :: rest else p :: bumpEntity rest e

/-- The entity-count merge of `append_activity_session_event`
(db/mod.rs:899-918): start from the parsed existing map (empty on NULL or
parse failure) and bump each non-blank entity. -/
def mergeEntities (existing : Option (List (String × Int)))
    (entities : List String) : List (String × Int) :=
  entities.foldl
    (fun m e => if trimmedIsEmpty e then m else bumpEntity m e)
    (existing.getD [])

/-- The `context_text` accumulation of `append_activity_session_event`
(db/mod.rs:926-968): append a newline separator if needed, append
`"[time_str] {summary.trim}\n"` for a non-blank summary, then tail-trim to
20000 characters.  `time_str` stands for the chrono `Local` `"%m-%d %H:%M"`
rendering of the event timestamp (db/mod.rs:943-945), which depends on the
host timezone and is therefore taken as an input. -/
def appendContext (existing : Option String) (summary : Option String)
    (time_str : String) : String :=
  let appended := existing.getD ""
  let appended :=
    if appended.data ≠ [] ∧ appended.data.getLast? ≠ some '\n' then
      appended ++ "\n"
    else appended
  let appended :=
    match summary with
    | some s =>
      if trimmedIsEmpty s then appended
      else appended ++ "[" ++ time_str ++ "] " ++ rustTrim s ++ "\n"
    | none => appended
  if appended.data.length > 20000 then tailChars 20000 appended else appended

/-- The `key_actions_json` accumulation of `append_activity_session_event`
(db/mod.rs:971-1007): push the new action unless the last recorded action is
for the same trace, then keep only the most recent 80
(`split_off(len - 80)`). -/
def appendKeyActions (existing : Option (List KeyAction))
    (timestamp trace_id : Int)
    (summary action_description activity_type : Option String)
    (entities : List String) : List KeyAction :=
  let arr := existing.getD []
  let action_text :=
    match action_description with
    | some d => if trimmedIsEmpty d then rustTrim (summary.getD "") else rustTrim d
    | none => rustTrim (summary.getD "")
  let action : KeyAction :=
    { timestamp := timestamp, trace_id := trace_id,
      summary := rustTrim (summary.getD ""),
      action_description := action_text,
      activity_type := activity_type, entities := entities }
  let arr :=
    match arr.getLast? with
    | some last => if last.trace_id = trace_id then arr else arr ++ [action]
    | none => arr ++ [action]
  if arr.length > 80 then arr.drop (arr.length - 80) else arr

/-- `Database::append_activity_session_event` (db/mod.rs:846-1034): insert
the event row (plain `INSERT`, no dedup — the schema declares no
`activity_session_events` table, let alone a UNIQUE constraint), flag the
trace, and fold entities / context / key actions into the session row. -/
def appendActivitySessionEvent (st : Store) (session_id trace_id timestamp : Int)
    (summary action_description activity_type : Option String)
    (entities : List String) (is_key_action : Bool) (time_str : String) : Store :=
  let ev : EventRow :=
    { session_id := session_id, trace_id := trace_id, timestamp := timestamp,
      summary := summary, is_key_action := is_key_action }
  let st1 :=
    { st with
      events := st.events ++ [ev],
      traces := st.traces.map (fun (t : TraceRow) =>
        if t.id = trace_id then { t with is_key_action := is_key_action } else t) }
  let s? := st1.sessions.find? (fun s => s.id = session_id)
  let merged := mergeEntities (s?.bind (·.entities_json)) entities
  let ctx := appendContext (s?.bind (·.context_text)) summary time_str
  let nextKA :=
    if is_key_action then
      some (appendKeyActions (s?.bind (·.key_actions_json)) timestamp trace_id
        summary action_description activity_type entities)
    else s?.bind (·.key_actions_json)
  { st1 with
    sessions := st1.sessions.map (fun (s : SessionRow) =>
      if s.id = session_id then
        { s with
          context_text := if ctx.data.isEmpty then none else some ctx,
          entities_json := if merged.isEmpty then none else some merged,
          key_actions_json := nextKA }
      else s) }

/-- How many `activity_session_events` rows exist for one
`(session_id, trace_id)` pair. -/
def eventCount (st : Store) (sid tid : Int) : Nat :=
  (st.events.filter (fun e => e.session_id = sid && e.trace_id = tid)).length

/-- Modelled from the spec (step 2 of `updateActivitySessionFromVlm`,
§4.5): reassign the trace to `session_id`. -/
def vlmTraceMove (session_id trace_id : Int) (t : TraceRow) : TraceRow :=
  if t.id = trace_id then { t with activity_session_id := some session_id }
  else t

/-- Modelled from the spec (step 2 of `updateActivitySessionFromVlm`,
§4.5): update `trace_count` of both sides of the move. -/
def vlmCountFix (old : Option Int) (session_id : Int) (s : SessionRow) :
    SessionRow :=
  if some s.id = old then { s with trace_count := s.trace_count - 1 }
  else if s.id = session_id then { s with trace_count := s.trace_count + 1 }
  else s

/-- Modelled from the spec (step 7 of `updateActivitySessionFromVlm`,
§4.5): widen the target session's time bounds to cover the event. -/
def vlmWiden (session_id ts : Int) (s : SessionRow) : SessionRow :=
  if s.id = session_id then
    { s with
      start_time := min s.start_time ts,
      end_time := max s.end_time ts }
  else s

/-- Modelled from the spec: `Database::update_activity_session_from_vlm` is
called at vlm_task.rs:505-516 but its definition is not among the sources
under review.  Spec §4.5 `updateActivitySessionFromVlm`, steps 1 (insert the
event row, dedup by `(session_id, trace_id)`), 2 (if the trace's current
`activity_session_id` differs from `session_id`, move it, updating
`trace_count` of both sides) and 7 (widen the session's time bounds); the
content-accumulation steps 3-6 are not needed by the claims and are
omitted. -/
def updateActivitySessionFromVlm (st : Store) (session_id trace_id ts : Int) :
    Store :=
  let events1 :=
    if st.events.any (fun e => e.session_id = session_id && e.trace_id = trace_id)
    then st.events
    else st.events ++ [⟨session_id, trace_id, ts, none, false⟩]
  let st1 := { st with events := events1 }
  let old := (st1.traces.find? (fun t => t.id = trace_id)).bind (·.activity_session_id)
  let st2 :=
    if old = some session_id then st1
    else
      { st1 with
        traces := st1.traces.map (vlmTraceMove session_id trace_id),
        sessions := st1.sessions.map (vlmCountFix old session_id) }
  { st2 with sessions := st2.sessions.map (vlmWiden session_id ts) }

/-! ## Hybrid search (`db/mod.rs:1409-1467`)

The `f32` RRF scores are modelled with `ℚ`; the spec and claim state the
scores as exact fractions. -/

/-- One `*scores.entry(id).or_insert(0.0) += score` step (db/mod.rs:1441,
1447): add to the existing entry or create it. -/
def bumpScore : List (Int × ℚ) → Int → ℚ → List (Int × ℚ)
  | [], id, v => [(id, v)]
  | p :: rest, id, v =>
    if p.1 = id then (p.1, p.2 + v) :: rest else p :: bumpScore rest id v

/-- The `for (rank, trace) in results.iter().enumerate()` scoring loop
(db/mod.rs:1439-1448): each id at 0-based `rank` contributes
`1 / (60 + rank + 1)`. -/
def addRanks (sc : List (Int × ℚ)) (ids : List Int) (rank : Nat) :
    List (Int × ℚ) :=
  match ids with
  | [] => sc
  | id :: rest =>
    addRanks (bumpScore sc id (1 / (60 + (rank : ℚ) + 1))) rest (rank + 1)

/-- The fused RRF score table of `hybrid_search`: FTS contributions then
vector contributions. -/
def rrfScores (ftsIds vecIds : List Int) : List (Int × ℚ) :=
  addRanks (addRanks [] ftsIds 0) vecIds 0

/-- The score the fused table assigns to an id (0 when absent). -/
def scoreOf (sc : List (Int × ℚ)) (id : Int) : ℚ :=
  ((sc.find? (fun p => p.1 = id)).map (·.2)).getD 0

/-- One insertion step of a stable descending sort: place `p` before the
first entry with score `≤ p`'s. -/
def insertDesc (p : Int × ℚ) : List (Int × ℚ) → List (Int × ℚ)
  | [] => [p]
  | q :: rest => if q.2 ≤ p.2 then p :: q :: rest else q :: insertDesc p rest

/-- The stable descending `results.sort_by(|a, b| b.1.partial_cmp(&a.1)...)`
of `hybrid_search` (db/mod.rs:1463). -/
def sortByScoreDesc (sc : List (Int × ℚ)) : List (Int × ℚ) :=
  sc.foldr insertDesc []

/-- RRF fusion, sort and truncation of `hybrid_search`
(db/mod.rs:1434-1466). -/
def hybridRank (ftsIds vecIds : List Int) (k : Nat) : List (Int × ℚ) :=
  (sortByScoreDesc (rrfScores ftsIds vecIds)).take k

/-- `Database::hybrid_search` (db/mod.rs:1410-1467) over the id rankings:
FTS results are fetched with `limit * 2` (db/mod.rs:1417) and the KNN with
`k = limit * 2` (db/mod.rs:1432), then fused and truncated to `limit`. -/
def hybridSearch (ftsRanking vecRanking : List Int) (k : Nat) :
    List (Int × ℚ) :=
  hybridRank (ftsRanking.take (2 * k)) (vecRanking.take (2 * k)) k

/-- The 0-based rank of `id` within a ranked list (the claim's "rank within
each list"). -/
def rankOf? (ids : List Int) (id : Int) : Option Nat :=
  match ids with
  | [] => none
  | x :: rest => if x = id then some 0 else (rankOf? rest id).map (· + 1)

/-- The per-list reciprocal-rank contribution named by the claim, with rank
offset `r`: `1 / (60 + (r + rank) + 1)` at the rank of `id`, 0 when
absent. -/
def rrfContributionFrom (ids : List Int) (r : Nat) (id : Int) : ℚ :=
  match rankOf? ids id with
  | some i => 1 / (60 + ((r + i : Nat) : ℚ) + 1)
  | none => 0

/-- The claim's per-list score term: `1/(60 + rank + 1)` at the 0-based rank
of `id` in the list, 0 when absent. -/
def rrfContribution (ids : List Int) (id : Int) : ℚ :=
  rrfContributionFrom ids 0 id

/-! ## Vector index maintenance (`db/mod.rs:1174-1253`) -/

/-- `Database::ensure_vec_table_inner` (db/mod.rs:1205-1253): create the
`vec0` table at the requested dimension if absent; keep it when the probe
insert of a `dimension * 4`-byte zero blob succeeds (i.e. the dimensions
match); otherwise drop and recreate it empty at the new dimension. -/
def ensureVecTable (vt : Option (Nat × List (Int × List Nat)))
    (dimension : Nat) : Nat × List (Int × List Nat) :=
  match vt with
  | some (d, rows) => if d = dimension then (d, rows) else (dimension, [])
  | none => (dimension, [])

/-- The `INSERT OR REPLACE INTO traces_vec` upsert (db/mod.rs:1192-1195). -/
def upsertVecRow (rows : List (Int × List Nat)) (tid : Int)
    (bytes : List Nat) : List (Int × List Nat) :=
  if rows.any (fun r => r.1 = tid) then
    rows.map (fun r => if r.1 = tid then (tid, bytes) else r)
  else rows ++ [(tid, bytes)]

/-- The `UPDATE traces SET embedding = ?1 WHERE id = ?2` statement
(db/mod.rs:1179-1182). -/
def traceEmbedSet (tid : Int) (bytes : List Nat) (t : TraceRow) : TraceRow :=
  if t.id = tid then { t with embedding := some bytes } else t

/-- `Database::update_trace_embedding` (db/mod.rs:1175-1202): set the
`traces.embedding` column, ensure the vec0 table at dimension
`len(bytes) / 4`, and upsert the row.  The upsert itself fails (`none`) only
when the blob length does not match the table's `FLOAT[d]` width, which
after `ensure` can happen only for a length that is not a multiple of 4. -/
def updateTraceEmbedding (st : Store) (tid : Int) (bytes : List Nat) :
    Option Store :=
  let st1 := { st with traces := st.traces.map (traceEmbedSet tid bytes) }
  let dimension := bytes.length / 4
  let vt := ensureVecTable st1.vecTable dimension
  if bytes.length = vt.1 * 4 then
    some { st1 with vecTable := some (vt.1, upsertVecRow vt.2 tid bytes) }
  else none

/-- The trace ids currently present in the vector index: the candidate set
of any subsequent KNN `MATCH` (db/mod.rs:1355-1367). -/
def vecIndexIds (st : Store) : List Int :=
  match st.vecTable with
  | some (_, rows) => rows.map (·.1)
  | none => []

/-- A store with one session (id 1, app "A") and no events yet: the starting
point of the duplicate-append experiment. -/
def c3Base : Store :=
  { emptyStore with sessions := [freshSession 1 "A" 0], nextSessionId := 2 }

/-- A store with one trace (id 1, routed to session 1) and two sessions:
the starting point of the pass-2 move experiment. -/
def c2Base : Store :=
  { emptyStore with
    traces := [{ id := 1, timestamp := 0, app_name := some "A", is_idle := false,
                 activity_session_id := some 1, is_key_action := false,
                 embedding := none }],
    sessions := [{ freshSession 1 "A" 0 with trace_count := 1 },
                 freshSession 2 "B" 5000],
    nextTraceId := 2, nextSessionId := 3 }

/-! ## Pass-2 session routing (`daemon/vlm_task.rs:472-503`) -/

/-- The seed app of a newly created pass-2 session (vlm_task.rs:496-500):
`trace.app_name.as_deref().or(description.detected_app.as_deref())
.unwrap_or("unknown")`. -/
def seedApp (trace_app_name detected_app : Option String) : String :=
  (trace_app_name.or detected_app).getD "unknown"

/-- The pass-2 routing decision (vlm_task.rs:472-503): take the model's
`existing_session_id` if it is among the active session ids, else the
embedding-similarity fallback, else create a new session seeded with
`seedApp`.  `embeddingChoice` stands for the result of
`pick_best_session_by_embedding` (vlm_task.rs:572-593), whose `f32` cosine
similarity with square roots is not modelled. -/
def routePass2 (existing_session_id : Option Int) (activeIds : List Int)
    (embeddingChoice : Option Int)
    (trace_app_name detected_app : Option String) : Sum Int String :=
  let chosen :=
    match existing_session_id with
    | some id => if activeIds.contains id then some id else none
    | none => none
  let chosen :=
    match chosen with
    | some id => some id
    | none => embeddingChoice
  match chosen with
  | some id => .inl id
  | none => .inr (seedApp trace_app_name detected_app)

end Engram

/-! ## Theorems -/

namespace Engram

/-- C9 counterexample: two concrete 8-byte hashes at Hamming distance exactly 5
(the default `similarity_threshold`).  The claim says such a frame is dropped;
the code (daemon/mod.rs:173 `distance < similarity_threshold`) retains it, and
drops a frame at distance 4 < 5. -/
theorem dedup_at_threshold_retained :
    hammingDistance [0, 0, 0, 0, 0, 0, 0, 0] [31, 0, 0, 0, 0, 0, 0, 0] = 5 ∧
    shouldSkipFrame (some [0, 0, 0, 0, 0, 0, 0, 0]) [31, 0, 0, 0, 0, 0, 0, 0] 5 = false ∧
    shouldSkipFrame (some [0, 0, 0, 0, 0, 0, 0, 0]) [15, 0, 0, 0, 0, 0, 0, 0] 5 = true := by
  decide

/-- C9 (amended): the capture loop drops a frame iff the Hamming distance to
the previous frame's hash is strictly less than `similarity_threshold`; in
particular a frame at distance exactly equal to the threshold is retained,
and a frame at distance strictly below it is dropped. -/
theorem dedup_boundary (prev cur : List Nat) (t : Nat) :
    (shouldSkipFrame (some prev) cur t = true ↔ hammingDistance prev cur < t) ∧
    (hammingDistance prev cur = t → shouldSkipFrame (some prev) cur t = false) := by
  constructor
  · simp [shouldSkipFrame]
  · intro h
    simp [shouldSkipFrame, h]

/-- Witness for `dedup_boundary` at concrete hashes. -/
theorem dedup_boundary_witness :
    (shouldSkipFrame (some [0, 0, 0, 0, 0, 0, 0, 0]) [7, 0, 0, 0, 0, 0, 0, 0] 5 = true ↔
      hammingDistance [0, 0, 0, 0, 0, 0, 0, 0] [7, 0, 0, 0, 0, 0, 0, 0] < 5) ∧
    (hammingDistance [0, 0, 0, 0, 0, 0, 0, 0] [7, 0, 0, 0, 0, 0, 0, 0] = 3 →
      shouldSkipFrame (some [0, 0, 0, 0, 0, 0, 0, 0]) [7, 0, 0, 0, 0, 0, 0, 0] 3 = false) := by
  exact ⟨(dedup_boundary [0, 0, 0, 0, 0, 0, 0, 0] [7, 0, 0, 0, 0, 0, 0, 0] 5).1,
    (dedup_boundary [0, 0, 0, 0, 0, 0, 0, 0] [7, 0, 0, 0, 0, 0, 0, 0] 3).2⟩

/-- C10: a failing OS idle probe makes `get_idle_time_ms` return `0`, so for
every positive threshold `is_idle()` is `false`; idle suppression happens
exactly when the probe succeeds with a reported time at or above the
threshold. -/
theorem idle_probe_error_never_idle (threshold : Nat) (h : 0 < threshold) :
    (∀ e : String, getIdleTimeMs (.error e) = 0) ∧
    (∀ e : String, isIdle threshold (.error e) = false) ∧
    (∀ probe : Except String Nat,
      isIdle threshold probe = true ↔ ∃ ms, probe = .ok ms ∧ threshold ≤ ms) := by
  refine ⟨fun e => rfl, fun e => ?_, fun probe => ?_⟩
  · simp [isIdle, getIdleTimeMs, Nat.not_le.mpr h]
  · cases probe with
    | ok ms =>
        simp only [isIdle, getIdleTimeMs, decide_eq_true_eq]
        constructor
        · intro hle; exact ⟨ms, rfl, hle⟩
        · rintro ⟨ms', hms, hle⟩
          cases hms
          exact hle
    | error e =>
        simp [isIdle, getIdleTimeMs, Nat.not_le.mpr h]

/-- Witness for `idle_probe_error_never_idle` at threshold 30000 (the
default `idle_threshold_ms`). -/
theorem idle_probe_error_never_idle_witness :
    0 < 30000 ∧ isIdle 30000 (.error "probe failed") = false :=
  ⟨by decide, (idle_probe_error_never_idle 30000 (by decide)).2.1 "probe failed"⟩

/-- C1: pass-1 routing of `insert_trace`.  (a) An idle trace, or one with an
absent or blank `app_name`, gets `session_id = None`.  (b) Otherwise, when
the app has a most recent session, it is adopted — leaving the session table
otherwise untouched and applying the start/end/count update — iff
`timestamp - end_time ≤ gap`; beyond the gap a fresh session is created and
receives the update.  (c) With no prior session for the app a fresh session
is created.  (d) The six-trace scenario (apps A,A,A,B,B,A at seconds
0,2,4,20,22,310, gap 300000 ms) produces exactly S1(A,[0..4s],count 3),
S2(B,[20..22s],count 2), S3(A,[310s],count 1). -/
theorem insert_trace_pass1_routing :
    (∀ st nt, (nt.is_idle = true ∨ nt.app_name = none ∨
        (∃ a, nt.app_name = some a ∧ trimmedIsEmpty a = true)) →
      (insertTrace st nt).1.2 = none ∧ (insertTrace st nt).2.sessions = st.sessions) ∧
    (∀ st nt a s, nt.is_idle = false → nt.app_name = some a →
        trimmedIsEmpty a = false → mostRecentSessionFor st.sessions a = some s →
      (nt.timestamp - s.end_time ≤ gapThresholdMs st →
        (insertTrace st nt).1.2 = some s.id ∧
        (insertTrace st nt).2.sessions = st.sessions.map (fun x =>
          if x.id = s.id then sessionInsertUpdate st.nextTraceId nt.timestamp x else x)) ∧
      (¬ nt.timestamp - s.end_time ≤ gapThresholdMs st →
        (insertTrace st nt).1.2 = some st.nextSessionId ∧
        (insertTrace st nt).2.sessions =
          (st.sessions ++ [freshSession st.nextSessionId a nt.timestamp]).map (fun x =>
            if x.id = st.nextSessionId then
              sessionInsertUpdate st.nextTraceId nt.timestamp x else x))) ∧
    (∀ st nt a, nt.is_idle = false → nt.app_name = some a →
        trimmedIsEmpty a = false → mostRecentSessionFor st.sessions a = none →
      (insertTrace st nt).1.2 = some st.nextSessionId) ∧
    (runInserts emptyStore c1Scenario).sessions =
      [{ id := 1, app_name := "A", title := none, description := none,
         start_time := 0, end_time := 4000, start_trace_id := some 1,
         end_trace_id := some 3, trace_count := 3, context_text := none,
         entities_json := none, key_actions_json := none },
       { id := 2, app_name := "B", title := none, description := none,
         start_time := 20000, end_time := 22000, start_trace_id := some 4,
         end_trace_id := some 5, trace_count := 2, context_text := none,
         entities_json := none, key_actions_json := none },
       { id := 3, app_name := "A", title := none, description := none,
         start_time := 310000, end_time := 310000, start_trace_id := some 6,
         end_trace_id := some 6, trace_count := 1, context_text := none,
         entities_json := none, key_actions_json := none }] := by
  refine ⟨?_, ?_, ?_, by decide⟩
  · rintro st nt (h | h | ⟨a, ha, hblank⟩)
    · simp [insertTrace, insertTraceCore, getOrCreateActivitySessionId, h]
    · simp [insertTrace, insertTraceCore, getOrCreateActivitySessionId, h]
    · simp [insertTrace, insertTraceCore, getOrCreateActivitySessionId, ha, hblank]
  · intro st nt a s hidle happ hblank hrecent
    constructor
    · intro hgap
      simp [insertTrace, insertTraceCore, getOrCreateActivitySessionId,
        hidle, happ, hblank, hrecent, hgap]
    · intro hgap
      simp [insertTrace, insertTraceCore, getOrCreateActivitySessionId,
        createSessionRow, freshSession, hidle, happ, hblank, hrecent, hgap]
  · intro st nt a hidle happ hblank hrecent
    simp [insertTrace, insertTraceCore, getOrCreateActivitySessionId,
      createSessionRow, hidle, happ, hblank, hrecent]

/-- Witness for `insert_trace_pass1_routing`: an idle capture routes to no
session, and a capture of app A two seconds after S1 ended adopts S1. -/
theorem insert_trace_pass1_routing_witness :
    (insertTrace emptyStore ⟨0, some "A", true⟩).1.2 = none ∧
    (insertTrace (runInserts emptyStore c1Scenario) ⟨312000, some "A", false⟩).1.2 = some 3 := by
  constructor
  · exact ((insert_trace_pass1_routing.1 emptyStore ⟨0, some "A", true⟩) (Or.inl rfl)).1
  · have h := (insert_trace_pass1_routing.2.1 (runInserts emptyStore c1Scenario)
      ⟨312000, some "A", false⟩ "A"
      { id := 3, app_name := "A", title := none, description := none,
        start_time := 310000, end_time := 310000, start_trace_id := some 6,
        end_trace_id := some 6, trace_count := 1, context_text := none,
        entities_json := none, key_actions_json := none }
      rfl rfl (by decide) (by decide)).1 (by decide)
    exact h.1

/-- C4 counterexample: on the empty store, a capture of app "A" whose trace
`INSERT` fails inside the transaction still leaves the freshly created
`activity_sessions` row behind, because `insert_trace` (db/mod.rs:120-129)
runs `get_or_create_activity_session_id_inner` on the raw connection before
`conn.transaction()` begins. -/
theorem insert_trace_not_atomic :
    insertTraceCore emptyStore ⟨0, some "A", false⟩ true =
      .error (getOrCreateActivitySessionId emptyStore 0 (some "A") false).2 ∧
    emptyStore.sessions = [] ∧
    (getOrCreateActivitySessionId emptyStore 0 (some "A") false).2.sessions ≠ [] :=
  ⟨rfl, rfl, by decide⟩

/-- C4 (amended): only the trace insert and the session update are inside the
transaction.  If `insert_trace` fails there, the `traces` table and every
preexisting session row are unchanged; the only possible residue is one
freshly created session row (with `trace_count = 0`) appended by pass-1
resolution, which ran before the transaction began. -/
theorem insert_trace_failure_residue (st st' : Store) (nt : NewTrace)
    (h : insertTraceCore st nt true = .error st') :
    st'.traces = st.traces ∧
    (st'.sessions = st.sessions ∨
      ∃ a, st'.sessions =
        st.sessions ++ [freshSession st.nextSessionId a nt.timestamp]) := by
  have hrfl : insertTraceCore st nt true =
      .error (getOrCreateActivitySessionId st nt.timestamp nt.app_name nt.is_idle).2 := rfl
  rw [hrfl] at h
  injection h with h'
  subst h'
  unfold getOrCreateActivitySessionId
  split
  · exact ⟨rfl, Or.inl rfl⟩
  · split
    · exact ⟨rfl, Or.inl rfl⟩
    · split
      · exact ⟨rfl, Or.inl rfl⟩
      · split
        · split
          · exact ⟨rfl, Or.inl rfl⟩
          · exact ⟨rfl, Or.inr ⟨_, rfl⟩⟩
        · exact ⟨rfl, Or.inr ⟨_, rfl⟩⟩

/-- Witness for `insert_trace_failure_residue` at the counterexample input. -/
theorem insert_trace_failure_residue_witness :
    (getOrCreateActivitySessionId emptyStore 0 (some "A") false).2.traces =
      emptyStore.traces := by
  have h := insert_trace_failure_residue emptyStore
    (getOrCreateActivitySessionId emptyStore 0 (some "A") false).2
    ⟨0, some "A", false⟩ rfl
  exact h.1

/-! ### Supporting lemmas -/

/-- `find?` by key commutes with mapping a key-preserving update over the
rows (SQL `UPDATE ... WHERE key = k` versus `SELECT ... WHERE key = k`). -/
theorem find?_map_of_key {α : Type} (key : α → Int) (l : List α) (k : Int)
    (u : α → α) (hu : ∀ a, key (u a) = key a) :
    (l.map u).find? (fun x => key x = k) =
      (l.find? (fun x => key x = k)).map u := by
  induction l with
  | nil => rfl
  | cons a t ih =>
    by_cases h : key a = k
    · simp [List.find?, hu, h]
    · simp [List.find?, hu, h, ih]

theorem scoreOf_cons (q : Int × ℚ) (rest : List (Int × ℚ)) (j : Int) :
    scoreOf (q :: rest) j = if q.1 = j then q.2 else scoreOf rest j := by
  by_cases h : q.1 = j <;> simp [scoreOf, List.find?, h]

theorem scoreOf_bumpScore (sc : List (Int × ℚ)) (id j : Int) (v : ℚ) :
    scoreOf (bumpScore sc id v) j =
      scoreOf sc j + (if j = id then v else 0) := by
  induction sc with
  | nil =>
    by_cases h : j = id
    · subst h; simp [bumpScore, scoreOf_cons, scoreOf]
    · simp [bumpScore, scoreOf_cons, scoreOf, h, Ne.symm h]
  | cons p rest ih =>
    by_cases hp : p.1 = id
    · have hb : bumpScore (p :: rest) id v = (p.1, p.2 + v) :: rest := by
        simp [bumpScore, hp]
      rw [hb, scoreOf_cons, scoreOf_cons]
      by_cases hj : p.1 = j
      · have hji : j = id := by rw [← hj]; exact hp
        simp [hj, hji]
      · have hji : ¬ j = id := fun he => hj (hp.trans he.symm)
        simp [hj, hji]
    · have hb : bumpScore (p :: rest) id v = p :: bumpScore rest id v := by
        simp [bumpScore, hp]
      rw [hb, scoreOf_cons, scoreOf_cons]
      by_cases hj : p.1 = j
      · have hji : ¬ j = id := fun he => hp (hj.trans he)
        simp [hj, hji]
      · simp [hj, ih]

theorem rankOf?_eq_none_of_not_mem (ids : List Int) (id : Int)
    (h : id ∉ ids) : rankOf? ids id = none := by
  induction ids with
  | nil => rfl
  | cons a t ih =>
    rw [List.mem_cons, not_or] at h
    simp [rankOf?, Ne.symm h.1, ih h.2]

theorem scoreOf_addRanks (ids : List Int) :
    ∀ (sc : List (Int × ℚ)) (r : Nat) (id : Int), ids.Nodup →
      scoreOf (addRanks sc ids r) id =
        scoreOf sc id + rrfContributionFrom ids r id := by
  induction ids with
  | nil =>
    intro sc r id _
    simp [addRanks, rrfContributionFrom, rankOf?]
  | cons x rest ih =>
    intro sc r id h
    obtain ⟨hx_nm, hrest⟩ := List.nodup_cons.mp h
    rw [addRanks, ih _ _ _ hrest, scoreOf_bumpScore]
    by_cases hx : x = id
    · subst hx
      simp [rrfContributionFrom, rankOf?, rankOf?_eq_none_of_not_mem _ _ hx_nm]
    · rcases hr : rankOf? rest id with _ | i
      · simp [rrfContributionFrom, rankOf?, hx, hr, Ne.symm hx]
      · have harith : (r + (i + 1) : Nat) = ((r + 1) + i : Nat) := by omega
        simp [rrfContributionFrom, rankOf?, hx, hr, Ne.symm hx, harith]

/-- Both branches of the context tail trim (db/mod.rs:957-968) are at most
`n` characters long. -/
theorem tail_trim_length_le (n : Nat) (s : String) :
    (if s.data.length > n then tailChars n s else s).data.length ≤ n := by
  split
  · simp [tailChars]
  · omega

theorem appendContext_length_le (e s : Option String) (t : String) :
    (appendContext e s t).data.length ≤ 20000 := by
  unfold appendContext
  exact tail_trim_length_le 20000 _

/-- Both branches of the key-action head trim (db/mod.rs:1003-1006) keep at
most 80 elements. -/
theorem ka_trim_length_le (l : List KeyAction) :
    (if l.length > 80 then l.drop (l.length - 80) else l).length ≤ 80 := by
  split
  · rw [List.length_drop]
    omega
  · omega

theorem appendKeyActions_length_le (e : Option (List KeyAction))
    (ts tid : Int) (s a at' : Option String) (ents : List String) :
    (appendKeyActions e ts tid s a at' ents).length ≤ 80 := by
  unfold appendKeyActions
  exact ka_trim_length_le _

/-- Pass-1 session resolution never touches `traces` and at most appends one
fresh session row. -/
theorem getOrCreate_shape (st : Store) (ts : Int) (app : Option String)
    (idle : Bool) :
    (getOrCreateActivitySessionId st ts app idle).2.traces = st.traces ∧
    ((getOrCreateActivitySessionId st ts app idle).2.sessions = st.sessions ∨
      ∃ a, (getOrCreateActivitySessionId st ts app idle).2.sessions =
        st.sessions ++ [freshSession st.nextSessionId a ts]) := by
  unfold getOrCreateActivitySessionId
  split
  · exact ⟨rfl, Or.inl rfl⟩
  · split
    · exact ⟨rfl, Or.inl rfl⟩
    · split
      · exact ⟨rfl, Or.inl rfl⟩
      · split
        · split
          · exact ⟨rfl, Or.inl rfl⟩
          · exact ⟨rfl, Or.inr ⟨_, rfl⟩⟩
        · exact ⟨rfl, Or.inr ⟨_, rfl⟩⟩

/-- Every session row after `insert_trace` either keeps the `context_text`
and `key_actions_json` of a pre-existing row (the insert update touches
neither) or is a fresh row with both `NULL`. -/
theorem insertTrace_session_content (st : Store) (nt : NewTrace) :
    ∀ s' ∈ (insertTrace st nt).2.sessions,
      (∃ s ∈ st.sessions, s'.context_text = s.context_text ∧
        s'.key_actions_json = s.key_actions_json) ∨
      (s'.context_text = none ∧ s'.key_actions_json = none) := by
  intro s' hs'
  have hshape := (getOrCreate_shape st nt.timestamp nt.app_name nt.is_idle).2
  rcases hres : getOrCreateActivitySessionId st nt.timestamp nt.app_name nt.is_idle
    with ⟨sid?, st1⟩
  rw [hres] at hshape
  simp only [insertTrace, insertTraceCore, hres] at hs'
  have hmem1 : ∀ s1, s1 ∈ st1.sessions →
      (∃ s ∈ st.sessions, s1.context_text = s.context_text ∧
        s1.key_actions_json = s.key_actions_json) ∨
      (s1.context_text = none ∧ s1.key_actions_json = none) := by
    intro s1 h1
    rcases hshape with hsame | ⟨a, happ⟩
    · exact Or.inl ⟨s1, hsame ▸ h1, rfl, rfl⟩
    · rw [happ, List.mem_append] at h1
      rcases h1 with h1 | h1
      · exact Or.inl ⟨s1, h1, rfl, rfl⟩
      · rcases List.mem_singleton.mp h1 with rfl
        exact Or.inr ⟨rfl, rfl⟩
  rcases sid? with _ | sid
  · exact hmem1 s' hs'
  · have hs'' : s' ∈ st1.sessions.map (fun s =>
        if s.id = sid then sessionInsertUpdate st1.nextTraceId nt.timestamp s
        else s) := hs'
    rw [List.mem_map] at hs''
    obtain ⟨s1, h1, rfl⟩ := hs''
    rcases hmem1 s1 h1 with ⟨s, hsm, hc, hk⟩ | ⟨hc, hk⟩
    · refine Or.inl ⟨s, hsm, ?_, ?_⟩ <;>
        by_cases hid : s1.id = sid <;> simp [hid, sessionInsertUpdate, hc, hk]
    · refine Or.inr ⟨?_, ?_⟩ <;>
        by_cases hid : s1.id = sid <;> simp [hid, sessionInsertUpdate, hc, hk]

/-- C7: the append-then-trim discipline.  If every session satisfies the
bounds (`context_text` at most 20000 characters, key-action array at most
80 elements) before an operation, every session satisfies them after
`append_activity_session_event` — whose trims make the target session's new
values obey the bounds outright — and after `insert_trace`, which never
touches either column. -/
theorem session_bounds_invariant (st : Store)
    (session_id trace_id timestamp : Int)
    (summary action_description activity_type : Option String)
    (entities : List String) (is_key_action : Bool) (time_str : String)
    (nt : NewTrace)
    (hctx : ∀ s ∈ st.sessions, (s.context_text.getD "").data.length ≤ 20000)
    (hka : ∀ s ∈ st.sessions, (s.key_actions_json.getD []).length ≤ 80) :
    (∀ s' ∈ (appendActivitySessionEvent st session_id trace_id timestamp
        summary action_description activity_type entities is_key_action
        time_str).sessions,
      (s'.context_text.getD "").data.length ≤ 20000 ∧
      (s'.key_actions_json.getD []).length ≤ 80) ∧
    (∀ s' ∈ (insertTrace st nt).2.sessions,
      (s'.context_text.getD "").data.length ≤ 20000 ∧
      (s'.key_actions_json.getD []).length ≤ 80) := by
  constructor
  · intro s' hs'
    have hs'' : s' ∈ st.sessions.map (fun (s : SessionRow) =>
        if s.id = session_id then
          { s with
            context_text :=
              if (appendContext
                  ((st.sessions.find? (fun x => x.id = session_id)).bind
                    (·.context_text)) summary time_str).data.isEmpty then none
              else some (appendContext
                  ((st.sessions.find? (fun x => x.id = session_id)).bind
                    (·.context_text)) summary time_str),
            entities_json :=
              if (mergeEntities
                  ((st.sessions.find? (fun x => x.id = session_id)).bind
                    (·.entities_json)) entities).isEmpty then none
              else some (mergeEntities
                  ((st.sessions.find? (fun x => x.id = session_id)).bind
                    (·.entities_json)) entities),
            key_actions_json :=
              if is_key_action then
                some (appendKeyActions
                  ((st.sessions.find? (fun x => x.id = session_id)).bind
                    (·.key_actions_json)) timestamp trace_id summary
                  action_description activity_type entities)
              else (st.sessions.find? (fun x => x.id = session_id)).bind
                (·.key_actions_json) }
        else s) := hs'
    rw [List.mem_map] at hs''
    obtain ⟨s, hsm, rfl⟩ := hs''
    by_cases hid : s.id = session_id
    · simp only [hid, if_true]
      refine ⟨?_, ?_⟩
      · split
        · simp
        · exact appendContext_length_le _ _ _
      · by_cases hkey : is_key_action
        · simp only [hkey, if_true, Option.getD_some]
          exact appendKeyActions_length_le _ _ _ _ _ _ _
        · simp only [hkey, if_false]
          rcases hfind : st.sessions.find? (fun x => x.id = session_id)
            with _ | s0
          · simp [hfind]
          · have hmem0 : s0 ∈ st.sessions := List.mem_of_find?_eq_some hfind
            rw [hfind]
            simpa using hka s0 hmem0
    · simp only [hid, if_false]
      exact ⟨hctx s hsm, hka s hsm⟩
  · intro s' hs'
    rcases insertTrace_session_content st nt s' hs' with ⟨s, hsm, hc, hk⟩ | ⟨hc, hk⟩
    · rw [hc, hk]
      exact ⟨hctx s hsm, hka s hsm⟩
    · rw [hc, hk]
      simp

/-- Witness for `session_bounds_invariant`: both bounds hold for the one
session left after appending a key-action event to the one-session store. -/
theorem session_bounds_invariant_witness :
    (((appendActivitySessionEvent c3Base 1 1 1000 (some "edited file")
        (some "edited main.rs") (some "coding") ["main.rs"] true
        "01-01 00:00").sessions.getD 0
          (freshSession 0 "x" 0)).context_text.getD "").data.length ≤ 20000 ∧
    (((appendActivitySessionEvent c3Base 1 1 1000 (some "edited file")
        (some "edited main.rs") (some "coding") ["main.rs"] true
        "01-01 00:00").sessions.getD 0
          (freshSession 0 "x" 0)).key_actions_json.getD []).length ≤ 80 :=
  (session_bounds_invariant c3Base 1 1 1000 (some "edited file")
    (some "edited main.rs") (some "coding") ["main.rs"] true "01-01 00:00"
    ⟨0, some "A", false⟩ (by decide) (by decide)).1 _ (by decide)

/-- C3: `append_activity_session_event` does not deduplicate.  On a store
with session 1 and no events, appending an event for `(session_id, trace_id)
= (1, 1)` twice leaves two rows for that pair — the INSERT (db/mod.rs:871-891)
is unconditional and `init_schema` (db/schema.rs) declares no
`activity_session_events` table, hence no UNIQUE constraint to stop it. -/
theorem append_event_duplicate_rows :
    eventCount c3Base 1 1 = 0 ∧
    eventCount (appendActivitySessionEvent
      (appendActivitySessionEvent c3Base 1 1 1000 (some "s") none none [] false
        "01-01 00:00")
      1 1 1000 (some "s") none none [] false "01-01 00:00") 1 1 = 2 := by
  decide

theorem vlmTraceMove_id (sid tid : Int) (t : TraceRow) :
    (vlmTraceMove sid tid t).id = t.id := by
  unfold vlmTraceMove
  split <;> rfl

theorem vlmCountFix_id (old : Option Int) (sid : Int) (s : SessionRow) :
    (vlmCountFix old sid s).id = s.id := by
  unfold vlmCountFix
  split
  · rfl
  · split <;> rfl

theorem vlmWiden_id (sid ts : Int) (s : SessionRow) :
    (vlmWiden sid ts s).id = s.id := by
  unfold vlmWiden
  split <;> rfl

/-- C2: the pass-2 verdict write.  For any store in which the trace and the
target session are found, `updateActivitySessionFromVlm` leaves the trace
assigned to `session_id`; the target session's `trace_count` grows by one
exactly when the trace was previously elsewhere (and is unchanged when it
already belonged); a previous owner session (when different) loses one from
its `trace_count`; and the target session's `[start_time, end_time]` is
widened to include the event timestamp. -/
theorem update_from_vlm_moves_and_widens (st : Store)
    (session_id trace_id ts : Int) (tr : TraceRow) (s : SessionRow)
    (htr : st.traces.find? (fun t => t.id = trace_id) = some tr)
    (hs : st.sessions.find? (fun x => x.id = session_id) = some s) :
    (updateActivitySessionFromVlm st session_id trace_id ts).traces.find?
        (fun t => t.id = trace_id) =
      some { tr with activity_session_id := some session_id } ∧
    (updateActivitySessionFromVlm st session_id trace_id ts).sessions.find?
        (fun x => x.id = session_id) =
      some { s with
        start_time := min s.start_time ts,
        end_time := max s.end_time ts,
        trace_count :=
          if tr.activity_session_id = some session_id then s.trace_count
          else s.trace_count + 1 } ∧
    (∀ o so, tr.activity_session_id = some o → o ≠ session_id →
      st.sessions.find? (fun x => x.id = o) = some so →
      (updateActivitySessionFromVlm st session_id trace_id ts).sessions.find?
        (fun x => x.id = o) =
        some { so with trace_count := so.trace_count - 1 }) := by
  have htrid : tr.id = trace_id := by
    have := List.find?_some htr
    simpa using this
  have hsid : s.id = session_id := by
    have := List.find?_some hs
    simpa using this
  by_cases hmove : tr.activity_session_id = some session_id
  · have htraces : (updateActivitySessionFromVlm st session_id trace_id ts).traces
        = st.traces := by
      simp only [updateActivitySessionFromVlm, htr, Option.some_bind]
      simp [hmove]
    have hsess : (updateActivitySessionFromVlm st session_id trace_id ts).sessions
        = st.sessions.map (vlmWiden session_id ts) := by
      simp only [updateActivitySessionFromVlm, htr, Option.some_bind]
      simp [hmove]
    refine ⟨?_, ?_, ?_⟩
    · rw [htraces, htr]
      cases tr
      simp only [TraceRow.mk.injEq] at htrid hmove ⊢
      simp_all
    · rw [hsess, find?_map_of_key SessionRow.id _ _ _ (vlmWiden_id session_id ts),
        hs]
      simp [vlmWiden, hsid, hmove]
    · intro o so ho hne hso
      rw [hsess, find?_map_of_key SessionRow.id _ _ _ (vlmWiden_id session_id ts),
        hso]
      have hcontr : session_id = o := Option.some.inj (hmove.symm.trans ho)
      exact absurd hcontr (Ne.symm hne)
  · have htraces : (updateActivitySessionFromVlm st session_id trace_id ts).traces
        = st.traces.map (vlmTraceMove session_id trace_id) := by
      simp only [updateActivitySessionFromVlm, htr, Option.some_bind]
      simp [hmove]
    have hsess : (updateActivitySessionFromVlm st session_id trace_id ts).sessions
        = (st.sessions.map (vlmCountFix tr.activity_session_id session_id)).map
            (vlmWiden session_id ts) := by
      simp only [updateActivitySessionFromVlm, htr, Option.some_bind]
      simp [hmove]
    refine ⟨?_, ?_, ?_⟩
    · rw [htraces,
        find?_map_of_key TraceRow.id _ _ _ (vlmTraceMove_id session_id trace_id),
        htr]
      simp [vlmTraceMove, htrid]
    · rw [hsess,
        find?_map_of_key SessionRow.id _ _ _ (vlmWiden_id session_id ts),
        find?_map_of_key SessionRow.id _ _ _
          (vlmCountFix_id tr.activity_session_id session_id),
        hs]
      have hold : ¬ some session_id = tr.activity_session_id :=
        fun he => hmove he.symm
      simp [vlmCountFix, vlmWiden, hsid, hold, hmove]
    · intro o so ho hne hso
      rw [hsess,
        find?_map_of_key SessionRow.id _ _ _ (vlmWiden_id session_id ts),
        find?_map_of_key SessionRow.id _ _ _
          (vlmCountFix_id tr.activity_session_id session_id),
        hso]
      have hsoid : so.id = o := by
        have := List.find?_some hso
        simpa using this
      have hold : some o = tr.activity_session_id := by rw [ho]
      simp [vlmCountFix, vlmWiden, hold, hsoid, hne]

/-- Witness for `update_from_vlm_moves_and_widens`: on the two-session store,
routing trace 1 (owned by session 1) to session 2 reassigns the trace,
increments session 2's count, decrements session 1's, and widens
session 2. -/
theorem update_from_vlm_moves_and_widens_witness :
    (updateActivitySessionFromVlm c2Base 2 1 6000).traces.find?
        (fun t => t.id = 1) =
      some { id := 1, timestamp := 0, app_name := some "A", is_idle := false,
             activity_session_id := some 2, is_key_action := false,
             embedding := none } ∧
    (updateActivitySessionFromVlm c2Base 2 1 6000).sessions.find?
        (fun x => x.id = 1) =
      some { freshSession 1 "A" 0 with trace_count := 0 } := by
  have h := update_from_vlm_moves_and_widens c2Base 2 1 6000
    { id := 1, timestamp := 0, app_name := some "A", is_idle := false,
      activity_session_id := some 1, is_key_action := false, embedding := none }
    (freshSession 2 "B" 5000) (by decide) (by decide)
  exact ⟨h.1, by
    have h2 := h.2.2 1 { freshSession 1 "A" 0 with trace_count := 1 }
      rfl (by decide) (by decide)
    simpa using h2⟩

/-- C5 counterexample: on the scenario rankings (FTS `[t3, t1, t5]`, vector
`[t1, t2, t5]`) the code's own formula gives `t5` rank 2 in both lists,
hence `score(t5) = 1/63 + 1/63` — not the `1/64 + 1/63` the claim states
(the order is unaffected). -/
theorem hybrid_search_t5_score_counterexample :
    scoreOf (hybridSearch [3, 1, 5] [1, 2, 5] 5) 5 = 1/63 + 1/63 ∧
    scoreOf (hybridSearch [3, 1, 5] [1, 2, 5] 5) 5 ≠ 1/64 + 1/63 := by
  constructor <;>
    norm_num [hybridSearch, hybridRank, rrfScores, addRanks, bumpScore,
      sortByScoreDesc, insertDesc, scoreOf, List.find?, List.take]

/-- C5 (amended): `hybrid_search` takes the top `2k` FTS ids and the top
`2k` KNN ids, scores each id by the sum over the two lists of
`1/(60 + rank + 1)` at its 0-based rank, sorts descending and returns the
top `k`.  On the scenario corpus the returned ranking is `t1, t5, t3, t2`
with `score(t1) = 1/62 + 1/61`, `score(t5) = 1/63 + 1/63`,
`score(t3) = 1/61`, `score(t2) = 1/62`. -/
theorem hybrid_search_rrf (fts vec : List Int) (hf : fts.Nodup)
    (hv : vec.Nodup) :
    (∀ id, scoreOf (rrfScores fts vec) id =
      rrfContribution fts id + rrfContribution vec id) ∧
    hybridSearch [3, 1, 5] [1, 2, 5] 5 =
      [(1, 1/62 + 1/61), (5, 1/63 + 1/63), (3, 1/61), (2, 1/62)] := by
  constructor
  · intro id
    rw [rrfScores, scoreOf_addRanks vec _ _ _ hv, scoreOf_addRanks fts _ _ _ hf]
    show 0 + _ + _ = _
    rw [zero_add]
    rfl
  · norm_num [hybridSearch, hybridRank, rrfScores, addRanks, bumpScore,
      sortByScoreDesc, insertDesc, List.take]

/-- Witness for `hybrid_search_rrf` at the scenario rankings and id `t1`. -/
theorem hybrid_search_rrf_witness :
    scoreOf (rrfScores [3, 1, 5] [1, 2, 5]) 1 =
      rrfContribution [3, 1, 5] 1 + rrfContribution [1, 2, 5] 1 :=
  (hybrid_search_rrf [3, 1, 5] [1, 2, 5] (by decide) (by decide)).1 1

theorem traceEmbedSet_id (tid : Int) (bytes : List Nat) (t : TraceRow) :
    (traceEmbedSet tid bytes t).id = t.id := by
  unfold traceEmbedSet
  split <;> rfl

theorem mem_upsertVecRow (rows : List (Int × List Nat)) (tid : Int)
    (bytes : List Nat) : (tid, bytes) ∈ upsertVecRow rows tid bytes := by
  unfold upsertVecRow
  split
  · next hany =>
    rw [List.any_eq_true] at hany
    obtain ⟨r, hr, hrid⟩ := hany
    exact List.mem_map.mpr ⟨r, hr, by simp [of_decide_eq_true hrid]⟩
  · exact List.mem_append_right _ (List.mem_singleton.mpr rfl)

/-- The embedding-update contract of `update_trace_embedding`, for any
well-formed blob. -/
theorem updateTraceEmbedding_spec (st : Store) (tid : Int)
    (bytes : List Nat) (h : bytes.length % 4 = 0) :
    ∃ st', updateTraceEmbedding st tid bytes = some st' ∧
      st'.traces.find? (fun t => t.id = tid) =
        (st.traces.find? (fun t => t.id = tid)).map
          (fun t => { t with embedding := some bytes }) ∧
      (∃ rows, st'.vecTable = some (bytes.length / 4, rows) ∧
        (tid, bytes) ∈ rows) ∧
      (∀ d rows, st.vecTable = some (d, rows) → d ≠ bytes.length / 4 →
        st'.vecTable = some (bytes.length / 4, [(tid, bytes)])) ∧
      (st.vecTable = none →
        st'.vecTable = some (bytes.length / 4, [(tid, bytes)])) := by
  have hlen : bytes.length = bytes.length / 4 * 4 :=
    (Nat.div_mul_cancel (Nat.dvd_of_mod_eq_zero h)).symm
  have hfst : ∀ vt : Option (Nat × List (Int × List Nat)),
      (ensureVecTable vt (bytes.length / 4)).1 = bytes.length / 4 := by
    intro vt
    rcases vt with _ | ⟨d, rows⟩
    · rfl
    · unfold ensureVecTable
      by_cases hd : d = bytes.length / 4 <;> simp [hd]
  have hcond : bytes.length =
      (ensureVecTable st.vecTable (bytes.length / 4)).1 * 4 := by
    rw [hfst]
    exact hlen
  simp only [updateTraceEmbedding]
  rw [if_pos hcond]
  refine ⟨_, rfl, ?_, ?_, ?_, ?_⟩
  · rw [find?_map_of_key TraceRow.id _ _ _ (traceEmbedSet_id tid bytes)]
    rcases hft : st.traces.find? (fun t => t.id = tid) with _ | tr
    · rw [hft]
      rfl
    · rw [hft]
      have htrid : tr.id = tid := by
        have := List.find?_some hft
        simpa using this
      simp [traceEmbedSet, htrid]
  · exact ⟨_, by rw [hfst], mem_upsertVecRow _ tid bytes⟩
  · intro d rows hvt hne
    simp [ensureVecTable, hvt, hne, upsertVecRow]
  · intro hvt
    simp [ensureVecTable, hvt, upsertVecRow]

/-- C6: `update_trace_embedding` with a well-formed blob (length a multiple
of 4) always succeeds: it sets the trace's `embedding` column and upserts
the `traces_vec` row; when the existing table's dimension differs from
`len/4` (or the table is absent) it is recreated at `len/4`, discarding all
prior rows so only the new row remains as KNN candidate.  The concrete
scenario: a 384-dim embedding for trace 1 followed by a 1536-dim embedding
for trace 2 succeeds and leaves only trace 2 in the vector index. -/
theorem update_trace_embedding_rebuild (st : Store) (tid : Int)
    (bytes : List Nat) (h : bytes.length % 4 = 0) :
    (∃ st', updateTraceEmbedding st tid bytes = some st' ∧
      st'.traces.find? (fun t => t.id = tid) =
        (st.traces.find? (fun t => t.id = tid)).map
          (fun t => { t with embedding := some bytes }) ∧
      (∃ rows, st'.vecTable = some (bytes.length / 4, rows) ∧
        (tid, bytes) ∈ rows) ∧
      (∀ d rows, st.vecTable = some (d, rows) → d ≠ bytes.length / 4 →
        st'.vecTable = some (bytes.length / 4, [(tid, bytes)])) ∧
      (st.vecTable = none →
        st'.vecTable = some (bytes.length / 4, [(tid, bytes)]))) ∧
    ((updateTraceEmbedding emptyStore 1 (List.replicate (384 * 4) 0)).bind
      (fun st1 => updateTraceEmbedding st1 2 (List.replicate (1536 * 4) 0))).map
        vecIndexIds = some [2] := by
  refine ⟨updateTraceEmbedding_spec st tid bytes h, ?_⟩
  have hlen384 : (List.replicate (384 * 4) (0 : Nat)).length / 4 = 384 := by
    rw [List.length_replicate]
  have hlen1536 : (List.replicate (1536 * 4) (0 : Nat)).length / 4 = 1536 := by
    rw [List.length_replicate]
  obtain ⟨st1, h1, _, _, _, hnone⟩ :=
    updateTraceEmbedding_spec emptyStore 1 (List.replicate (384 * 4) 0)
      (by rw [List.length_replicate])
  have hv1 := hnone rfl
  rw [hlen384] at hv1
  obtain ⟨st2, h2, _, _, hreb, _⟩ :=
    updateTraceEmbedding_spec st1 2 (List.replicate (1536 * 4) 0)
      (by rw [List.length_replicate])
  have hv2 := hreb 384 [(1, List.replicate (384 * 4) 0)] hv1
    (by rw [hlen1536]; norm_num)
  rw [hlen1536] at hv2
  have hids : vecIndexIds st2 = [2] := by
    unfold vecIndexIds
    rw [hv2]
    rfl
  rw [h1, Option.some_bind, h2]
  simp [hids]

/-- Witness for `update_trace_embedding_rebuild`: an 8-byte (2-dim) blob on
the empty store is accepted. -/
theorem update_trace_embedding_rebuild_witness :
    (updateTraceEmbedding emptyStore 1 (List.replicate 8 0)).isSome = true := by
  obtain ⟨⟨st', hst', _⟩, _⟩ :=
    update_trace_embedding_rebuild emptyStore 1 (List.replicate 8 0) (by decide)
  rw [hst']
  rfl

/-- C8 counterexample: with no active session, no model choice and no
embedding match, a trace with `app_name = "A"` and VLM `detected_app = "B"`
creates a session seeded `"A"` — the code (vlm_task.rs:496-500) prefers the
trace's `app_name`, not `detected_app` as the claim states. -/
theorem pass2_seed_counterexample :
    routePass2 none [] none (some "A") (some "B") = .inr "A" ∧ "A" ≠ "B" := by
  decide

/-- C8 (amended): when the model-chosen `existing_session_id` is not among
the active sessions and the embedding fallback yields nothing, the new
session is seeded with `app_name ?? detected_app ?? "unknown"` — the trace's
`app_name` takes precedence over `detected_app`. -/
theorem pass2_seed_app_name_precedence (existing : Option Int)
    (activeIds : List Int) (trace_app detected : Option String)
    (h : ∀ id, existing = some id → activeIds.contains id = false) :
    routePass2 existing activeIds none trace_app detected =
      .inr (seedApp trace_app detected) ∧
    (∀ a, seedApp (some a) detected = a) ∧
    (∀ d, seedApp none (some d) = d) ∧
    seedApp none none = "unknown" := by
  refine ⟨?_, fun a => rfl, fun d => rfl, rfl⟩
  cases existing with
  | none => rfl
  | some id =>
    have h' : id ∉ activeIds := by
      have := h id rfl
      simpa using this
    simp [routePass2, h']

/-- Witness for `pass2_seed_app_name_precedence`: model chose session 7 but
no session is active, so a new session seeded from the trace's app is
created. -/
theorem pass2_seed_app_name_precedence_witness :
    routePass2 (some 7) [] none (some "App") none =
      .inr (seedApp (some "App") none) :=
  (pass2_seed_app_name_precedence (some 7) [] (some "App") none
    (fun _ _ => rfl)).1

end Engram
